import Mathlib

/-!
Shallow embedding of the PyramidSolitaire rules engine
(`src/AbstractPyramidSolitaire.ts`, `src/AbstractSinglePyramidSolitaireModel.ts`,
`Card.ts`, `Suit.ts`, `GameState.ts`, `BasicPyramidSolitaire.ts`).

Conventions of the embedding:
* JS `null` card slots become `Option Card` with `none`.
* Mutating methods become functions `Game → args → Game × Option Err`:
  the returned `Game` is the engine state at the moment the method returns
  or throws, and the `Option Err` component is `none` on normal return and
  `some e` when the method throws (so partial mutation before a throw is
  representable, which is what claim C9 is about).
* Read-only methods that can throw become `Game → args → Except Err α`
  (they perform no mutation in the source).
* Indices are `Nat`; the source's `index >= 0` half of each bounds check is
  subsumed by the type, and the `index < length` half is kept verbatim.
* The `shuffle` flag of `startGame` selects an in-place `Math.random`
  Fisher-Yates permutation of the private deck copy.  Randomness is outside
  the embedding; the embedding is the `shuffle = false` path (a shuffled
  start coincides with an unshuffled start on the permuted deck, and every
  claim below either fixes `shuffle = false` or quantifies over all decks).
* Error messages are abstracted into the error kinds of spec section 7.
-/

namespace PyramidSolitaire

/-- Translation of `Suit.ts`: the four suits. -/
inductive Suit
  | heart
  | spade
  | club
  | diamond
deriving DecidableEq

/-- Translation of `Card.ts`: a suit together with a numeric value.  The constructor places
no restriction on `value`; `Card.equals` is structural equality on both
fields, which is exactly the derived `DecidableEq`. -/
structure Card where
  suit : Suit
  value : Nat
deriving DecidableEq

instance : Inhabited Card := ⟨⟨Suit.heart, 0⟩⟩

/-- Translation of `GameState.ts`: NOT_STARTED or STARTED. -/
inductive GameState
  | notStarted
  | started
deriving DecidableEq

/-- The mutable fields of `AbstractPyramidSolitaire`.  The constructor only
sets `gamestate`; `pyramid`, `stock` and `draws` are undefined until
`startGame`, modelled as empty lists in `initGame`. -/
structure Game where
  pyramid : List (List (Option Card))
  stock : List Card
  draws : List (Option Card)
  gamestate : GameState
deriving DecidableEq

/-- A freshly constructed engine (`new BasicPyramidSolitaire()`). -/
def initGame : Game := ⟨[], [], [], GameState.notStarted⟩

/-- The error kinds of spec section 7; each `throw new Error(...)` site of the
source maps to one of them. -/
inductive Err
  | invalidDeck
  | insufficientCards
  | invalidLayout
  | notStarted
  | outOfBounds
  | emptySlot
  | invalidMove
  | covered
deriving DecidableEq

/-- The `removalValue` field: fixed at 13. -/
def removalValue : Nat := 13

/-- Translation of `AbstractSinglePyramidSolitaireModel.getDeck`: for each suit in the order
heart, spade, club, diamond, push the cards of values 1..13. -/
def getDeck : List Card :=
  ([Suit.heart, Suit.spade, Suit.club, Suit.diamond].map
    (fun s => (List.range 13).map (fun x => Card.mk s (x + 1)))).flatten

/-- The double loop of `isValidDeck` returns false exactly when two distinct
indices hold `equals`-equal cards; this recursion computes the same
pairwise-distinctness test. -/
def noTwoEqual : List Card → Bool
  | [] => true
  | c :: rest => rest.all (fun d => decide (c ≠ d)) && noTwoEqual rest

/-- Translation of `AbstractSinglePyramidSolitaireModel.isValidDeck`: no two equal cards and
the length of the canonical deck (52).  The source additionally rejects
`null` entries; deck entries are `Card` values here, so that branch has no
counterpart. -/
def isValidDeck (deck : List Card) : Bool :=
  noTwoEqual deck && deck.length == getDeck.length

/-- Translation of `AbstractSinglePyramidSolitaireModel.isEnoughCards`. -/
def isEnoughCards (deckSize : Nat) (numRows numDraws : Int) : Bool :=
  decide (numRows * (numRows + 1) / 2 + numDraws ≤ (deckSize : Int))

/-- One row of `dealCards`, and also the draw-dealing loop of `startGame`:
push `deck[0]` then `shift`, `k` times.  When the deck runs out, JS pushes
`undefined` (loosely equal to `null`), modelled as `none`; this branch is
unreachable after the `isEnoughCards` check. -/
def dealRow : Nat → List Card → List (Option Card) × List Card
  | 0, deck => ([], deck)
  | k + 1, [] => (none :: (dealRow k []).1, [])
  | k + 1, c :: deck =>
    let r := dealRow k deck
    (some c :: r.1, r.2)

/-- The row loop of `dealCards`: row of size `rowSize`, then the remaining
`n` rows of increasing sizes. -/
def dealRowsFrom : Nat → Nat → List Card → List (List (Option Card)) × List Card
  | 0, _, deck => ([], deck)
  | n + 1, rowSize, deck =>
    let r := dealRow rowSize deck
    let rest := dealRowsFrom n (rowSize + 1) r.2
    (r.1 :: rest.1, rest.2)

/-- Translation of `AbstractSinglePyramidSolitaireModel.dealCards` (shuffle = false path):
row `r` consumes `r + 1` cards from the front, rows top to bottom.  Returns
the pyramid together with the remaining deck (the source mutates the deck
copy in place). -/
def dealCards (numRows : Nat) (deck : List Card) : List (List (Option Card)) × List Card :=
  dealRowsFrom numRows 1 deck

/-- Translation of `AbstractPyramidSolitaire.startGame`: the five validation checks in
source order, then deal the pyramid, the draw pile, and keep the rest as
stock.  The source copies the caller's deck before dealing, so the caller's
array is never mutated; here purity makes that automatic. -/
def startGame (g : Game) (deck : Option (List Card)) (numRows numDraw : Int) :
    Game × Option Err :=
  match deck with
  | none => (g, some Err.invalidDeck)
  | some d =>
    if !isValidDeck d then (g, some Err.invalidDeck)
    else if !isEnoughCards d.length numRows numDraw then (g, some Err.insufficientCards)
    else if numRows == 0 && numDraw == 0 then (g, some Err.invalidLayout)
    else if numRows ≤ 0 then (g, some Err.invalidLayout)
    else if numDraw < 0 then (g, some Err.invalidLayout)
    else
      let dealt := dealCards numRows.toNat d
      let drawsDealt := dealRow numDraw.toNat dealt.2
      (⟨dealt.1, drawsDealt.2, drawsDealt.1, GameState.started⟩, none)

/-- Direct slot access `this.pyramid[row][card]`, used by the source's
methods after their own bounds checks have passed. -/
def cardAt (g : Game) (row card : Nat) : Option Card :=
  (g.pyramid.getD row []).getD card none

/-- Translation of `AbstractPyramidSolitaire.isRowInBounds` (`row >= 0` holds by type). -/
def isRowInBounds (g : Game) (row : Nat) : Bool :=
  decide (row < g.pyramid.length)

/-- Translation of `AbstractPyramidSolitaire.isCardInBounds`. -/
def isCardInBounds (g : Game) (row card : Nat) : Bool :=
  isRowInBounds g row && decide (card < (g.pyramid.getD row []).length)

/-- Translation of `AbstractPyramidSolitaire.isCovered`: last row is never covered,
otherwise covered when either slot directly below is non-null.  The
source's own out-of-bounds throws are unreachable: every caller checks
bounds first. -/
def isCovered (g : Game) (row card : Nat) : Bool :=
  if row == g.pyramid.length - 1 then false
  else (cardAt g (row + 1) card).isSome || (cardAt g (row + 1) (card + 1)).isSome

/-- The assignment `this.pyramid[row][card] = v`. -/
def setCard (g : Game) (row card : Nat) (v : Option Card) : Game :=
  { g with pyramid := g.pyramid.set row ((g.pyramid.getD row []).set card v) }

/-- Translation of `AbstractPyramidSolitaire.remove`: checks in source order (started, row
bounds, card bounds, card present, value equals 13, uncovered), then null
the slot. -/
def remove (g : Game) (row card : Nat) : Game × Option Err :=
  if g.gamestate = GameState.notStarted then (g, some Err.notStarted)
  else if !isRowInBounds g row then (g, some Err.outOfBounds)
  else if !isCardInBounds g row card then (g, some Err.outOfBounds)
  else
    match cardAt g row card with
    | none => (g, some Err.emptySlot)
    | some c =>
      if c.value ≠ removalValue then (g, some Err.invalidMove)
      else if isCovered g row card then (g, some Err.covered)
      else (setCard g row card none, none)

/-- Translation of `AbstractPyramidSolitaire.removeTwoChecks`: the first failing check's
error, `none` when all pass. -/
def removeTwoChecks (g : Game) (row1 card1 row2 card2 : Nat) : Option Err :=
  if g.gamestate = GameState.notStarted then some Err.notStarted
  else if !isRowInBounds g row1 || !isRowInBounds g row2 then some Err.outOfBounds
  else if !isCardInBounds g row1 card1 || !isCardInBounds g row2 card2 then
    some Err.outOfBounds
  else
    match cardAt g row1 card1, cardAt g row2 card2 with
    | none, _ => some Err.emptySlot
    | _, none => some Err.emptySlot
    | some c1, some c2 =>
      if c1.value + c2.value ≠ removalValue then some Err.invalidMove else none

/-- Translation of `AbstractPyramidSolitaire.removeTwo`: `removeTwoChecks`, then the covered
check on both positions, then null both slots (first position first). -/
def removeTwo (g : Game) (row1 card1 row2 card2 : Nat) : Game × Option Err :=
  match removeTwoChecks g row1 card1 row2 card2 with
  | some e => (g, some e)
  | none =>
    if isCovered g row1 card1 || isCovered g row2 card2 then (g, some Err.covered)
    else (setCard (setCard g row1 card1 none) row2 card2 none, none)

/-- Translation of `AbstractPyramidSolitaire.discardDraw`: started, draw index bounds, slot
present; then replace the slot with the stock front (shifting the stock) or
with null when the stock is empty. -/
def discardDraw (g : Game) (drawIndex : Nat) : Game × Option Err :=
  if g.gamestate = GameState.notStarted then (g, some Err.notStarted)
  else if drawIndex ≥ g.draws.length then (g, some Err.outOfBounds)
  else if g.draws.getD drawIndex none = none then (g, some Err.emptySlot)
  else
    match g.stock with
    | c :: rest => ({ g with draws := g.draws.set drawIndex (some c), stock := rest }, none)
    | [] => ({ g with draws := g.draws.set drawIndex none }, none)

/-- Translation of `AbstractPyramidSolitaire.removeUsingDraw`: checks in source order
(started, row bounds, card bounds, draw index bounds, pyramid card present,
draw card present, values sum to 13, uncovered), then null the pyramid slot
and call `discardDraw`. -/
def removeUsingDraw (g : Game) (drawIndex row card : Nat) : Game × Option Err :=
  if g.gamestate = GameState.notStarted then (g, some Err.notStarted)
  else if !isRowInBounds g row then (g, some Err.outOfBounds)
  else if !isCardInBounds g row card then (g, some Err.outOfBounds)
  else if drawIndex ≥ g.draws.length then (g, some Err.outOfBounds)
  else
    match cardAt g row card with
    | none => (g, some Err.emptySlot)
    | some c =>
      match g.draws.getD drawIndex none with
      | none => (g, some Err.emptySlot)
      | some d =>
        if c.value + d.value ≠ removalValue then (g, some Err.invalidMove)
        else if isCovered g row card then (g, some Err.covered)
        else discardDraw (setCard g row card none) drawIndex

/-- Translation of `AbstractPyramidSolitaire.getNumRows`: -1 when not started (it does not
throw), else the pyramid height. -/
def getNumRows (g : Game) : Int :=
  if g.gamestate = GameState.notStarted then -1 else (g.pyramid.length : Int)

/-- Translation of `AbstractPyramidSolitaire.getNumDraw`: -1 when not started (it does not
throw), else the draw-pile length. -/
def getNumDraw (g : Game) : Int :=
  if g.gamestate = GameState.notStarted then -1 else (g.draws.length : Int)

/-- Translation of `AbstractPyramidSolitaire.getRowWidth`. -/
def getRowWidth (g : Game) (row : Nat) : Except Err Nat :=
  if g.gamestate = GameState.notStarted then Except.error Err.notStarted
  else if !isRowInBounds g row then Except.error Err.outOfBounds
  else Except.ok (g.pyramid.getD row []).length

/-- Translation of `AbstractPyramidSolitaire.getCardAt`. -/
def getCardAt (g : Game) (row card : Nat) : Except Err (Option Card) :=
  if g.gamestate = GameState.notStarted then Except.error Err.notStarted
  else if !isRowInBounds g row then Except.error Err.outOfBounds
  else if !isCardInBounds g row card then Except.error Err.outOfBounds
  else Except.ok (cardAt g row card)

/-- Translation of `AbstractPyramidSolitaire.getDrawCards` (returns a copy; copying is
identity here). -/
def getDrawCards (g : Game) : Except Err (List (Option Card)) :=
  if g.gamestate = GameState.notStarted then Except.error Err.notStarted
  else Except.ok g.draws

/-- Translation of `AbstractPyramidSolitaire.isGameWon`, faithful to the source: the
`return false` inside the `forEach` callback only exits the callback and
its result is discarded, so the method falls through to its final
`return true` on every input.  (Spec section 9 flags this pattern as an
apparent bug; see claims C1 and C2.) -/
def isGameWon (_g : Game) : Bool := true

/-- Translation of `AbstractPyramidSolitaire.getUncovered`: row-major collection of the
non-null, uncovered pyramid cards. -/
def getUncovered (g : Game) : List Card :=
  ((List.range g.pyramid.length).map (fun row =>
    (List.range (g.pyramid.getD row []).length).filterMap (fun card =>
      match cardAt g row card with
      | some c => if isCovered g row card then none else some c
      | none => none))).flatten

/-- Translation of `AbstractPyramidSolitaire.canBeRemoved`. -/
def canBeRemoved (cards : List Card) : Bool :=
  cards.any (fun c => c.value == removalValue)

/-- Translation of `AbstractPyramidSolitaire.canAddToRemovalValue`: every ordered pair of
distinct indices. -/
def canAddToRemovalValue (cards : List Card) : Bool :=
  (List.range cards.length).any (fun card1 =>
    (List.range cards.length).any (fun card2 =>
      card1 != card2 &&
        ((cards.getD card1 default).value + (cards.getD card2 default).value
          == removalValue)))

/-- Translation of `AbstractPyramidSolitaire.isGameOver`: started check, then the
(always-true) `isGameWon` test, then the no-single-removal, no-pair-removal
and no-discard tests.  The `draws.forEach` block of the source has no
effect (its callback's return value is discarded) and is omitted. -/
def isGameOver (g : Game) : Except Err Bool :=
  if g.gamestate = GameState.notStarted then Except.error Err.notStarted
  else if isGameWon g then Except.ok true
  else
    let uncovered := getUncovered g
    if canBeRemoved uncovered then Except.ok false
    else if canAddToRemovalValue uncovered then Except.ok false
    else Except.ok (!(decide (0 < getNumDraw g) && decide (0 < g.stock.length)))

/-- Translation of `AbstractPyramidSolitaire.getScore`: started check, the (always-true)
`isGameWon` test returning 0, then (dead code) the sum of the non-null
pyramid card values. -/
def getScore (g : Game) : Except Err Nat :=
  if g.gamestate = GameState.notStarted then Except.error Err.notStarted
  else if isGameWon g then Except.ok 0
  else
    Except.ok (g.pyramid.foldl (fun acc row =>
      row.foldl (fun a oc =>
        match oc with
        | some c => a + c.value
        | none => a) acc) 0)

/-! ### Spec-side definitions

These follow the wording of the specification (sections 3, 4.7 and 8), for
comparison with the source-translated functions above.  They are used by the
claims about `isGameOver`, `getScore` and the conservation invariant. -/

/-- Spec section 4.7: the game is won when every pyramid slot is empty. -/
def isGameWonSpec (g : Game) : Bool :=
  g.pyramid.all (fun row => row.all (fun c => c.isNone))

/-- Spec section 4.7: the score is the sum of the ranks of all non-empty
pyramid slots. -/
def scoreSpec (g : Game) : Nat :=
  (g.pyramid.map (fun row => ((row.filterMap id).map Card.value).sum)).sum

/-- Spec section 4.7: the candidate set for the any-possible-move test is the
uncovered non-empty pyramid cards plus all non-empty draw cards. -/
def specCandidates (g : Game) : List Card :=
  getUncovered g ++ g.draws.filterMap id

/-- Spec section 4.7 / claim C1: game over exactly when won, or none of
(a) a candidate of rank 13, (b) two distinct candidates summing to 13,
(c) non-empty stock with at least one draw slot. -/
def gameOverSpec (g : Game) : Bool :=
  isGameWonSpec g ||
    (!canBeRemoved (specCandidates g) &&
     !canAddToRemovalValue (specCandidates g) &&
     !(decide (0 < g.stock.length) && decide (0 < g.draws.length)))

/-! ### Counting and operation sequences (for the conservation claim C3) -/

/-- Number of non-empty pyramid slots. -/
def countPyramid (g : Game) : Nat :=
  (g.pyramid.map (fun row => row.countP (fun c => c.isSome))).sum

/-- Number of non-empty draw slots. -/
def countDraws (g : Game) : Nat :=
  g.draws.countP (fun c => c.isSome)

/-- The conserved total of claim C3: non-empty pyramid slots plus non-empty
draw slots plus stock length. -/
def totalNonEmpty (g : Game) : Nat :=
  countPyramid g + countDraws g + g.stock.length

/-- The four mutating operations available after the game has started. -/
inductive Op
  | removeOp (row card : Nat)
  | removeTwoOp (row1 card1 row2 card2 : Nat)
  | removeUsingDrawOp (drawIndex row card : Nat)
  | discardDrawOp (drawIndex : Nat)
deriving DecidableEq

/-- Dispatch an operation to the engine. -/
def applyOp (g : Game) : Op → Game × Option Err
  | Op.removeOp r c => remove g r c
  | Op.removeTwoOp r1 c1 r2 c2 => removeTwo g r1 c1 r2 c2
  | Op.removeUsingDrawOp d r c => removeUsingDraw g d r c
  | Op.discardDrawOp d => discardDraw g d

/-- Removed-card count of claim C3: the number of pyramid slots each
operation clears on success. -/
def removedOf : Op → Nat
  | Op.removeOp _ _ => 1
  | Op.removeTwoOp _ _ _ _ => 2
  | Op.removeUsingDrawOp _ _ _ => 1
  | Op.discardDrawOp _ => 0

/-- Number of draw cards an operation discards from play on success (the
quantity the amended claim C3 adds to the conservation equation). -/
def discardedOf : Op → Nat
  | Op.removeOp _ _ => 0
  | Op.removeTwoOp _ _ _ _ => 0
  | Op.removeUsingDrawOp _ _ _ => 1
  | Op.discardDrawOp _ => 1

/-- Run a sequence of operations, succeeding only if every operation
succeeds. -/
def runOps (g : Game) : List Op → Option Game
  | [] => some g
  | op :: ops =>
    match applyOp g op with
    | (g', none) => runOps g' ops
    | (_, some _) => none

/-! ### Concrete states used by counterexamples and witnesses -/

/-- The engine state after `startGame(getDeck(), false, 3, 3)` on a fresh
engine. -/
def g3start : Game := (startGame initGame (some getDeck) 3 3).1

/-- The state after additionally discarding draw slot 0. -/
def g3afterDiscard : Game :=
  (runOps g3start [Op.discardDrawOp 0]).getD initGame

/-- A 52-card deck of pairwise distinct cards that is not a permutation of
the standard deck: the ace of hearts is replaced by a card of value 14. -/
def badDeck : List Card := Card.mk Suit.heart 14 :: getDeck.tail

/-- A started single-slot game holding a king, for witnesses. -/
def kingGame : Game :=
  ⟨[[some (Card.mk Suit.heart 13)]], [], [], GameState.started⟩

/-- A started single-slot game holding a six, for witnesses. -/
def sixGame : Game :=
  ⟨[[some (Card.mk Suit.heart 6)]], [], [], GameState.started⟩

/-- A started game with one draw slot holding a three and one stock card,
for the discard witness. -/
def drawGame : Game :=
  ⟨[[some (Card.mk Suit.heart 13)]], [Card.mk Suit.spade 5],
    [some (Card.mk Suit.club 3)], GameState.started⟩

/-! ### List helper lemmas -/

theorem getD_set_self {α : Type} (l : List α) (i : Nat) (a d : α)
    (h : i < l.length) : (l.set i a).getD i d = a := by
  induction l generalizing i with
  | nil => simp at h
  | cons x xs ih =>
    cases i with
    | zero => simp [List.set, List.getD]
    | succ n =>
      simp only [List.set, List.getD_cons_succ]
      exact ih n (by simpa using h)

theorem getD_set_ne {α : Type} (l : List α) (i j : Nat) (a d : α)
    (h : i ≠ j) : (l.set i a).getD j d = l.getD j d := by
  induction l generalizing i j with
  | nil => simp
  | cons x xs ih =>
    cases i with
    | zero =>
      cases j with
      | zero => exact absurd rfl h
      | succ m => simp [List.getD_cons_succ]
    | succ n =>
      cases j with
      | zero => simp
      | succ m =>
        simp only [List.set, List.getD_cons_succ]
        exact ih n m (by omega)

theorem countP_set_getD {α : Type} (p : α → Bool) (l : List α) (i : Nat)
    (a d : α) (h : i < l.length) :
    (l.set i a).countP p + (if p (l.getD i d) then 1 else 0) =
      l.countP p + (if p a then 1 else 0) := by
  induction l generalizing i with
  | nil => simp at h
  | cons x xs ih =>
    cases i with
    | zero => simp [List.countP_cons]; omega
    | succ n =>
      simp only [List.set, List.getD_cons_succ, List.countP_cons]
      have := ih n (by simpa using h)
      omega

theorem sum_map_set {α : Type} (f : α → Nat) (l : List α) (i : Nat)
    (a d : α) (h : i < l.length) :
    ((l.set i a).map f).sum + f (l.getD i d) = (l.map f).sum + f a := by
  induction l generalizing i with
  | nil => simp at h
  | cons x xs ih =>
    cases i with
    | zero => simp [List.getD]; omega
    | succ n =>
      simp only [List.set, List.getD_cons_succ, List.map_cons, List.sum_cons]
      have := ih n (by simpa using h)
      omega

/-! ### Facts about `setCard` -/

theorem setCard_stock (g : Game) (r c : Nat) (v : Option Card) :
    (setCard g r c v).stock = g.stock := rfl

theorem setCard_draws (g : Game) (r c : Nat) (v : Option Card) :
    (setCard g r c v).draws = g.draws := rfl

theorem setCard_gamestate (g : Game) (r c : Nat) (v : Option Card) :
    (setCard g r c v).gamestate = g.gamestate := rfl

theorem setCard_pyramid_length (g : Game) (r c : Nat) (v : Option Card) :
    (setCard g r c v).pyramid.length = g.pyramid.length := by
  simp [setCard]

theorem setCard_row_length (g : Game) (r c : Nat) (v : Option Card) (r' : Nat) :
    ((setCard g r c v).pyramid.getD r' []).length =
      (g.pyramid.getD r' []).length := by
  by_cases hr : r = r'
  · subst hr
    by_cases hlt : r < g.pyramid.length
    · rw [setCard]
      show ((g.pyramid.set r ((g.pyramid.getD r []).set c v)).getD r []).length = _
      rw [getD_set_self _ _ _ _ hlt, List.length_set]
    · rw [setCard]
      show ((g.pyramid.set r ((g.pyramid.getD r []).set c v)).getD r []).length = _
      rw [List.set_eq_of_length_le (by omega)]
  · rw [setCard]
    show ((g.pyramid.set r ((g.pyramid.getD r []).set c v)).getD r' []).length = _
    rw [getD_set_ne _ _ _ _ _ hr]

theorem cardAt_setCard_ne (g : Game) (r c r' c' : Nat) (v : Option Card)
    (h : ¬(r = r' ∧ c = c')) :
    cardAt (setCard g r c v) r' c' = cardAt g r' c' := by
  by_cases hr : r = r'
  · subst hr
    have hc : c ≠ c' := fun hc => h ⟨rfl, hc⟩
    by_cases hlt : r < g.pyramid.length
    · show (((g.pyramid.set r ((g.pyramid.getD r []).set c v)).getD r []).getD c' none) = _
      rw [getD_set_self _ _ _ _ hlt, getD_set_ne _ _ _ _ _ hc]
      rfl
    · show (((g.pyramid.set r ((g.pyramid.getD r []).set c v)).getD r []).getD c' none) = _
      rw [List.set_eq_of_length_le (by omega)]
      rfl
  · show (((g.pyramid.set r ((g.pyramid.getD r []).set c v)).getD r' []).getD c' none) = _
    rw [getD_set_ne _ _ _ _ _ hr]
    rfl

theorem cardAt_setCard_self (g : Game) (r c : Nat) (v : Option Card)
    (hr : r < g.pyramid.length) (hc : c < (g.pyramid.getD r []).length) :
    cardAt (setCard g r c v) r c = v := by
  show (((g.pyramid.set r ((g.pyramid.getD r []).set c v)).getD r []).getD c none) = _
  rw [getD_set_self _ _ _ _ hr, getD_set_self _ _ _ _ hc]

theorem countPyramid_setCard_none (g : Game) (r c : Nat) (x : Card)
    (hr : r < g.pyramid.length) (hc : c < (g.pyramid.getD r []).length)
    (hx : cardAt g r c = some x) :
    countPyramid (setCard g r c none) + 1 = countPyramid g := by
  have h1 : ((g.pyramid.set r ((g.pyramid.getD r []).set c none)).map
        (fun row => row.countP (fun c => c.isSome))).sum +
        (g.pyramid.getD r []).countP (fun c => c.isSome) =
      (g.pyramid.map (fun row => row.countP (fun c => c.isSome))).sum +
        ((g.pyramid.getD r []).set c none).countP (fun c => c.isSome) :=
    sum_map_set (fun row => row.countP (fun c => c.isSome)) g.pyramid r
      ((g.pyramid.getD r []).set c none) [] hr
  unfold cardAt at hx
  have h2 : ((g.pyramid.getD r []).set c none).countP (fun c => c.isSome) + 1 =
      (g.pyramid.getD r []).countP (fun c => c.isSome) := by
    have h3 := countP_set_getD (fun c => c.isSome) (g.pyramid.getD r []) c none none hc
    rw [hx] at h3
    simpa using h3
  unfold countPyramid setCard
  simp only
  omega

/-! ### Success characterisations of the mutating operations -/

theorem started_of_not_notStarted (g : Game)
    (h : ¬g.gamestate = GameState.notStarted) :
    g.gamestate = GameState.started := by
  cases hgs : g.gamestate
  · exact absurd hgs h
  · rfl

theorem remove_success (g g' : Game) (r c : Nat)
    (h : remove g r c = (g', none)) :
    g.gamestate = GameState.started ∧ g'.gamestate = g.gamestate ∧
    totalNonEmpty g' + 1 = totalNonEmpty g := by
  unfold remove at h
  split at h
  next => simp at h
  next hst =>
    split at h
    next => simp at h
    next hrow =>
      split at h
      next => simp at h
      next hcard =>
        split at h
        next => simp at h
        next x hx =>
          split at h
          next => simp at h
          next hval =>
            split at h
            next => simp at h
            next hcov =>
              have hg' : g' = setCard g r c none := by
                have := congrArg Prod.fst h
                simpa using this.symm
              simp [isRowInBounds] at hrow
              simp [isCardInBounds, isRowInBounds] at hcard
              refine ⟨started_of_not_notStarted g hst, ?_, ?_⟩
              · rw [hg']; rfl
              · rw [hg']
                have hcnt := countPyramid_setCard_none g r c x hrow
                  (by simpa using hcard.2) hx
                have hd : countDraws (setCard g r c none) = countDraws g := rfl
                have hs : (setCard g r c none).stock = g.stock := rfl
                unfold totalNonEmpty
                rw [hd, hs]
                omega

theorem discardDraw_success (g g' : Game) (d : Nat)
    (h : discardDraw g d = (g', none)) :
    g.gamestate = GameState.started ∧ g'.gamestate = g.gamestate ∧
    totalNonEmpty g' + 1 = totalNonEmpty g ∧ g'.pyramid = g.pyramid := by
  unfold discardDraw at h
  split at h
  next => simp at h
  next hst =>
    split at h
    next => simp at h
    next hd =>
      split at h
      next => simp at h
      next hslot =>
        have hdlt : d < g.draws.length := by omega
        obtain ⟨y, hy⟩ : ∃ y, g.draws.getD d none = some y := by
          cases hv : g.draws.getD d none
          · exact absurd hv hslot
          · exact ⟨_, rfl⟩
        split at h
        next c rest hstock =>
          have hg' : g' = { g with draws := g.draws.set d (some c), stock := rest } := by
            have := congrArg Prod.fst h
            simpa using this.symm
          have hcd : (g.draws.set d (some c)).countP (fun c => c.isSome) =
              g.draws.countP (fun c => c.isSome) := by
            have h3 := countP_set_getD (fun c => c.isSome) g.draws d (some c) none hdlt
            rw [hy] at h3
            simpa using h3
          refine ⟨started_of_not_notStarted g hst, by rw [hg'], ?_, by rw [hg']⟩
          rw [hg']
          unfold totalNonEmpty countPyramid countDraws
          simp only
          rw [hcd, hstock]
          simp only [List.length_cons]
          omega
        next hstock =>
          have hg' : g' = { g with draws := g.draws.set d none } := by
            have := congrArg Prod.fst h
            simpa using this.symm
          have hcd : (g.draws.set d none).countP (fun c => c.isSome) + 1 =
              g.draws.countP (fun c => c.isSome) := by
            have h3 := countP_set_getD (fun c => c.isSome) g.draws d none none hdlt
            rw [hy] at h3
            simpa using h3
          refine ⟨started_of_not_notStarted g hst, by rw [hg'], ?_, by rw [hg']⟩
          rw [hg']
          unfold totalNonEmpty countPyramid countDraws
          simp only
          rw [hstock]
          simp only [List.length_nil]
          omega

theorem removeTwoChecks_none (g : Game) (r1 c1 r2 c2 : Nat)
    (h : removeTwoChecks g r1 c1 r2 c2 = none) :
    g.gamestate = GameState.started ∧
    r1 < g.pyramid.length ∧ r2 < g.pyramid.length ∧
    c1 < (g.pyramid.getD r1 []).length ∧ c2 < (g.pyramid.getD r2 []).length ∧
    ∃ a b, cardAt g r1 c1 = some a ∧ cardAt g r2 c2 = some b ∧
      a.value + b.value = removalValue := by
  unfold removeTwoChecks at h
  split at h
  next => simp at h
  next hst =>
    split at h
    next => simp at h
    next hrows =>
      split at h
      next => simp at h
      next hcards =>
        split at h
        next => simp at h
        next => simp at h
        next a b ha hb =>
          split at h
          next => simp at h
          next hsum =>
            simp [isRowInBounds] at hrows
            simp [isCardInBounds, isRowInBounds] at hcards
            refine ⟨started_of_not_notStarted g hst, hrows.1, hrows.2,
              by simpa using hcards.1.2, by simpa using hcards.2.2,
              a, b, ha, hb, by omega⟩

theorem removeTwo_success (g g' : Game) (r1 c1 r2 c2 : Nat)
    (h : removeTwo g r1 c1 r2 c2 = (g', none)) :
    g.gamestate = GameState.started ∧ g'.gamestate = g.gamestate ∧
    totalNonEmpty g' + 2 = totalNonEmpty g ∧ ¬(r1 = r2 ∧ c1 = c2) := by
  unfold removeTwo at h
  split at h
  next => simp at h
  next hchecks =>
    obtain ⟨hst, hr1, hr2, hc1, hc2, a, b, ha, hb, hsum⟩ :=
      removeTwoChecks_none g r1 c1 r2 c2 hchecks
    have hne : ¬(r1 = r2 ∧ c1 = c2) := by
      rintro ⟨rfl, rfl⟩
      rw [ha] at hb
      cases hb
      unfold removalValue at hsum
      omega
    split at h
    next => simp at h
    next hcov =>
      have hg' : g' = setCard (setCard g r1 c1 none) r2 c2 none := by
        have := congrArg Prod.fst h
        simpa using this.symm
      have step1 := countPyramid_setCard_none g r1 c1 a hr1 hc1 ha
      have hr2' : r2 < (setCard g r1 c1 none).pyramid.length := by
        rw [setCard_pyramid_length]; exact hr2
      have hc2' : c2 < ((setCard g r1 c1 none).pyramid.getD r2 []).length := by
        rw [setCard_row_length]; exact hc2
      have hb' : cardAt (setCard g r1 c1 none) r2 c2 = some b := by
        rw [cardAt_setCard_ne g r1 c1 r2 c2 none hne]; exact hb
      have step2 := countPyramid_setCard_none (setCard g r1 c1 none) r2 c2 b hr2' hc2' hb'
      refine ⟨hst, by rw [hg']; rfl, ?_, hne⟩
      rw [hg']
      have hd2 : countDraws (setCard (setCard g r1 c1 none) r2 c2 none) = countDraws g := rfl
      have hs2 : (setCard (setCard g r1 c1 none) r2 c2 none).stock = g.stock := rfl
      have hd1 : countDraws (setCard g r1 c1 none) = countDraws g := rfl
      unfold totalNonEmpty
      rw [hd2, hs2]
      omega

theorem removeUsingDraw_success (g g' : Game) (d r c : Nat)
    (h : removeUsingDraw g d r c = (g', none)) :
    g.gamestate = GameState.started ∧ g'.gamestate = g.gamestate ∧
    totalNonEmpty g' + 2 = totalNonEmpty g := by
  unfold removeUsingDraw at h
  split at h
  next => simp at h
  next hst =>
    split at h
    next => simp at h
    next hrow =>
      split at h
      next => simp at h
      next hcard =>
        split at h
        next => simp at h
        next hd =>
          split at h
          next => simp at h
          next x hx =>
            split at h
            next => simp at h
            next y hy =>
              split at h
              next => simp at h
              next hsum =>
                split at h
                next => simp at h
                next hcov =>
                  simp [isRowInBounds] at hrow
                  simp [isCardInBounds, isRowInBounds] at hcard
                  have hcnt := countPyramid_setCard_none g r c x hrow
                    (by simpa using hcard.2) hx
                  obtain ⟨hst2, hgs2, htot2, hpyr2⟩ :=
                    discardDraw_success (setCard g r c none) g' d h
                  refine ⟨started_of_not_notStarted g hst, ?_, ?_⟩
                  · rw [hgs2]; rfl
                  · have htot1 : totalNonEmpty (setCard g r c none) + 1 = totalNonEmpty g := by
                      have hdr : countDraws (setCard g r c none) = countDraws g := rfl
                      have hsk : (setCard g r c none).stock = g.stock := rfl
                      unfold totalNonEmpty
                      rw [hdr, hsk]
                      omega
                    omega

/-- Every successful post-start operation removes from play exactly
`removedOf op` pyramid cards plus `discardedOf op` draw-pile cards, and
never changes the lifecycle state. -/
theorem applyOp_success (g g' : Game) (op : Op)
    (h : applyOp g op = (g', none)) :
    g.gamestate = GameState.started ∧ g'.gamestate = g.gamestate ∧
    totalNonEmpty g' + (removedOf op + discardedOf op) = totalNonEmpty g := by
  cases op with
  | removeOp r c =>
    obtain ⟨h1, h2, h3⟩ := remove_success g g' r c h
    exact ⟨h1, h2, by simpa [removedOf, discardedOf] using h3⟩
  | removeTwoOp r1 c1 r2 c2 =>
    obtain ⟨h1, h2, h3, _⟩ := removeTwo_success g g' r1 c1 r2 c2 h
    exact ⟨h1, h2, by simpa [removedOf, discardedOf] using h3⟩
  | removeUsingDrawOp d r c =>
    obtain ⟨h1, h2, h3⟩ := removeUsingDraw_success g g' d r c h
    exact ⟨h1, h2, by simpa [removedOf, discardedOf] using h3⟩
  | discardDrawOp d =>
    obtain ⟨h1, h2, h3, _⟩ := discardDraw_success g g' d h
    exact ⟨h1, h2, by simpa [removedOf, discardedOf] using h3⟩

/-- Folding `applyOp_success` over a successful run. -/
theorem runOps_total (ops : List Op) (g gN : Game)
    (h : runOps g ops = some gN) :
    totalNonEmpty gN + ((ops.map removedOf).sum + (ops.map discardedOf).sum) =
      totalNonEmpty g ∧ gN.gamestate = g.gamestate := by
  induction ops generalizing g with
  | nil =>
    cases h
    simp
  | cons op ops ih =>
    unfold runOps at h
    split at h
    next g1 happ =>
      obtain ⟨_, hgs, htot⟩ := applyOp_success g g1 op happ
      obtain ⟨ih1, ih2⟩ := ih g1 h
      constructor
      · simp only [List.map_cons, List.sum_cons]
        omega
      · rw [ih2, hgs]
    next => cases h

/-! ### Dealing conserves card count -/

theorem dealRow_count (k : Nat) (deck : List Card) :
    (dealRow k deck).1.countP (fun c => c.isSome) + (dealRow k deck).2.length =
      deck.length := by
  induction k generalizing deck with
  | zero => simp [dealRow]
  | succ k ih =>
    cases deck with
    | nil =>
      have h0 := ih []
      show ((none :: (dealRow k []).1).countP (fun c => c.isSome) +
        ([] : List Card).length = ([] : List Card).length)
      have e2 : (if ((none : Option Card).isSome = true) then 1 else 0) = 0 := rfl
      simp only [List.countP_cons, List.length_nil, e2] at h0 ⊢
      omega
    | cons c d =>
      have h0 := ih d
      show ((some c :: (dealRow k d).1).countP (fun c => c.isSome) +
        (dealRow k d).2.length = (c :: d).length)
      simp only [List.countP_cons, Option.isSome_some, List.length_cons,
        reduceIte] at h0 ⊢
      omega

theorem dealRowsFrom_count (n s : Nat) (deck : List Card) :
    ((dealRowsFrom n s deck).1.map (fun row => row.countP (fun c => c.isSome))).sum +
      (dealRowsFrom n s deck).2.length = deck.length := by
  induction n generalizing s deck with
  | zero => simp [dealRowsFrom]
  | succ n ih =>
    have h1 := dealRow_count s deck
    have h2 := ih (s + 1) (dealRow s deck).2
    simp only [dealRowsFrom, List.map_cons, List.sum_cons]
    omega

/-- A successful `startGame` yields a started state whose card count is the
deck size. -/
theorem startGame_success (g g' : Game) (deck : List Card)
    (numRows numDraw : Int)
    (h : startGame g (some deck) numRows numDraw = (g', none)) :
    totalNonEmpty g' = deck.length ∧ g'.gamestate = GameState.started := by
  have h' : (if !isValidDeck deck then (g, some Err.invalidDeck)
      else if !isEnoughCards deck.length numRows numDraw then
        (g, some Err.insufficientCards)
      else if numRows == 0 && numDraw == 0 then (g, some Err.invalidLayout)
      else if numRows ≤ 0 then (g, some Err.invalidLayout)
      else if numDraw < 0 then (g, some Err.invalidLayout)
      else
        (⟨(dealCards numRows.toNat deck).1,
          (dealRow numDraw.toNat (dealCards numRows.toNat deck).2).2,
          (dealRow numDraw.toNat (dealCards numRows.toNat deck).2).1,
          GameState.started⟩, none)) = (g', none) := h
  clear h
  split at h'
  next => simp at h'
  next hvalid =>
    split at h'
    next => simp at h'
    next henough =>
      split at h'
      next => simp at h'
      next hzero =>
        split at h'
        next => simp at h'
        next hrows =>
          split at h'
          next => simp at h'
          next hdraws =>
            have hg' : g' = ⟨(dealCards numRows.toNat deck).1,
                (dealRow numDraw.toNat (dealCards numRows.toNat deck).2).2,
                (dealRow numDraw.toNat (dealCards numRows.toNat deck).2).1,
                GameState.started⟩ := by
              have := congrArg Prod.fst h'
              simpa using this.symm
            have h1 := dealRowsFrom_count numRows.toNat 1 deck
            have h2 := dealRow_count numDraw.toNat (dealCards numRows.toNat deck).2
            refine ⟨?_, by rw [hg']⟩
            rw [hg']
            unfold totalNonEmpty countPyramid countDraws dealCards
            simp only
            unfold dealCards at h2
            omega

/-! ### Deck validity characterisation -/

theorem noTwoEqual_iff (l : List Card) : noTwoEqual l = true ↔ l.Nodup := by
  induction l with
  | nil => simp [noTwoEqual]
  | cons c rest ih =>
    simp only [noTwoEqual, Bool.and_eq_true, List.all_eq_true, decide_eq_true_eq,
      List.nodup_cons, ih]
    constructor
    · rintro ⟨h1, h2⟩
      exact ⟨fun hmem => h1 c hmem rfl, h2⟩
    · rintro ⟨h1, h2⟩
      exact ⟨fun d hd he => h1 (he ▸ hd), h2⟩

theorem isValidDeck_iff (deck : List Card) :
    isValidDeck deck = true ↔ deck.length = 52 ∧ deck.Nodup := by
  have hg : getDeck.length = 52 := rfl
  simp only [isValidDeck, Bool.and_eq_true, noTwoEqual_iff, beq_iff_eq, hg]
  tauto

theorem startGame_snd_of_valid (g : Game) (deck : List Card)
    (numRows numDraw : Int) (hv : isValidDeck deck = true) :
    (startGame g (some deck) numRows numDraw).2 ≠ some Err.invalidDeck := by
  show (if !isValidDeck deck then (g, some Err.invalidDeck)
      else if !isEnoughCards deck.length numRows numDraw then
        (g, some Err.insufficientCards)
      else if numRows == 0 && numDraw == 0 then (g, some Err.invalidLayout)
      else if numRows ≤ 0 then (g, some Err.invalidLayout)
      else if numDraw < 0 then (g, some Err.invalidLayout)
      else
        (⟨(dealCards numRows.toNat deck).1,
          (dealRow numDraw.toNat (dealCards numRows.toNat deck).2).2,
          (dealRow numDraw.toNat (dealCards numRows.toNat deck).2).1,
          GameState.started⟩, none)).2 ≠ some Err.invalidDeck
  rw [if_neg (by simp [hv])]
  split
  next => simp
  next =>
    split
    next => simp
    next =>
      split
      next => simp
      next =>
        split
        next => simp
        next => simp

/-! ### The claims -/

/-- C1 (code bug): the claim says `isGameOver()` is false whenever the
pyramid is not cleared and a single removal, a pair removal over the
candidate set, or a discard is still possible.  On the code, the `forEach`
early-return bug in `isGameWon` makes `isGameOver` answer `true` for every
started state.  At the freshly dealt 3-row/3-draw game from the canonical
deck, candidate pairs sum to 13 and the stock is non-empty, so the claimed
answer (`gameOverSpec`) is `false`, yet the code answers `true`. -/
theorem C1_isGameOver_always_true :
    isGameOver g3start = Except.ok true ∧ gameOverSpec g3start = false :=
  ⟨rfl, by decide⟩

/-- C2 (code bug): the claim says `getScore()` returns the sum of the ranks
of the non-empty pyramid slots (21 for the fresh 3-row game: 1+2+3+4+5+6).
Because the buggy `isGameWon` is always true, the code returns 0 for every
started state. -/
theorem C2_getScore_always_zero :
    getScore g3start = Except.ok 0 ∧ scoreSpec g3start = 21 :=
  ⟨rfl, by decide⟩

/-- C3 counterexample: one successful `discardDraw` destroys the discarded
draw card, so the total drops from 52 to 51 while the claim's removed-card
count stays 0; the claimed equation `total = deck size − removed` fails. -/
theorem C3_discard_breaks_claimed_conservation :
    runOps g3start [Op.discardDrawOp 0] = some g3afterDiscard ∧
    totalNonEmpty g3start = 52 ∧
    (List.map removedOf [Op.discardDrawOp 0]).sum = 0 ∧
    totalNonEmpty g3afterDiscard = 51 ∧ (51 : Nat) ≠ 52 - 0 :=
  ⟨rfl, by decide, rfl, by decide, by decide⟩

/-- C3 (amended): after a successful start on a deck and any sequence of
successful operations, the number of non-empty pyramid slots plus non-empty
draw slots plus stock cards equals the original deck size minus the
removed-card count minus the number of discarded draw cards, where each
successful `discardDraw` (including the one inside `removeUsingDraw`)
discards exactly one draw card from play. -/
theorem C3_conservation_with_discards (g0 gs gN : Game) (deck : List Card)
    (numRows numDraw : Int) (ops : List Op)
    (hstart : startGame g0 (some deck) numRows numDraw = (gs, none))
    (hrun : runOps gs ops = some gN) :
    totalNonEmpty gN + (ops.map removedOf).sum + (ops.map discardedOf).sum =
      deck.length := by
  obtain ⟨h1, _⟩ := startGame_success g0 gs deck numRows numDraw hstart
  obtain ⟨h2, _⟩ := runOps_total ops gs gN hrun
  omega

/-- Witness for C3: the fresh 3-row/3-draw game followed by one discard. -/
theorem C3_conservation_witness :
    startGame initGame (some getDeck) 3 3 = (g3start, none) ∧
    runOps g3start [Op.discardDrawOp 0] = some g3afterDiscard ∧
    totalNonEmpty g3afterDiscard + (List.map removedOf [Op.discardDrawOp 0]).sum +
      (List.map discardedOf [Op.discardDrawOp 0]).sum = getDeck.length :=
  ⟨rfl, rfl, C3_conservation_with_discards initGame g3start g3afterDiscard getDeck
    3 3 [Op.discardDrawOp 0] rfl rfl⟩

/-- C4 counterexample: `badDeck` replaces the ace of hearts by a card of
value 14.  It has 52 pairwise distinct cards, so the code's deck check
passes and `startGame` succeeds, even though the deck is missing the
(heart, 1) combination and is therefore not a permutation of the standard
deck — the claim says this must fail with `InvalidDeck`. -/
theorem C4_nonstandard_deck_passes :
    badDeck.length = 52 ∧
    badDeck.all (fun c => decide (c ≠ Card.mk Suit.heart 1)) = true ∧
    isValidDeck badDeck = true ∧
    (startGame initGame (some badDeck) 3 3).2 = none := by
  refine ⟨by decide, by decide, by decide, by decide⟩

/-- C4 (amended): the operation `startGame` fails with `InvalidDeck` if and only if the
deck is null, or does not consist of exactly 52 pairwise distinct
(suit, value) cards.  A 52-card duplicate-free deck passes the check even
when it is missing standard (suit, rank 1..13) combinations (compensated by
cards outside them); every true permutation of the standard deck passes. -/
theorem C4_invalidDeck_iff (g : Game) (numRows numDraw : Int) :
    startGame g none numRows numDraw = (g, some Err.invalidDeck) ∧
    (∀ deck : List Card,
      ((startGame g (some deck) numRows numDraw).2 = some Err.invalidDeck ↔
        ¬(deck.length = 52 ∧ deck.Nodup))) ∧
    (∀ deck : List Card, deck.Perm getDeck → isValidDeck deck = true) := by
  refine ⟨rfl, fun deck => ?_, fun deck hperm => ?_⟩
  · by_cases hv : isValidDeck deck = true
    · constructor
      · intro habs
        exact absurd habs (startGame_snd_of_valid g deck numRows numDraw hv)
      · intro habs
        exact absurd ((isValidDeck_iff deck).mp hv) habs
    · constructor
      · intro _
        intro hcl
        exact hv ((isValidDeck_iff deck).mpr hcl)
      · intro _
        show (if !isValidDeck deck then (g, some Err.invalidDeck)
            else if !isEnoughCards deck.length numRows numDraw then
              (g, some Err.insufficientCards)
            else if numRows == 0 && numDraw == 0 then (g, some Err.invalidLayout)
            else if numRows ≤ 0 then (g, some Err.invalidLayout)
            else if numDraw < 0 then (g, some Err.invalidLayout)
            else
              (⟨(dealCards numRows.toNat deck).1,
                (dealRow numDraw.toNat (dealCards numRows.toNat deck).2).2,
                (dealRow numDraw.toNat (dealCards numRows.toNat deck).2).1,
                GameState.started⟩, none)).2 = some Err.invalidDeck
        rw [if_pos (by simp [hv])]
  · have h1 : deck.Nodup := hperm.nodup_iff.mpr (by decide)
    have h2 : deck.length = 52 := by rw [hperm.length_eq]; rfl
    exact (isValidDeck_iff deck).mpr ⟨h2, h1⟩

/-- Witness for C4: the canonical deck is a permutation of itself and
passes the deck check. -/
theorem C4_invalidDeck_witness :
    getDeck.Perm getDeck ∧ isValidDeck getDeck = true :=
  ⟨List.Perm.refl getDeck,
   (C4_invalidDeck_iff initGame 3 3).2.2 getDeck (List.Perm.refl getDeck)⟩

/-- C5 counterexample: on a NOT-STARTED engine, `getNumRows` and
`getNumDraw` do not fail with the NotStarted error as the claim states —
they return -1 (their result type has no error channel at all). -/
theorem C5_getNum_queries_return_neg_one :
    getNumRows initGame = -1 ∧ getNumDraw initGame = -1 :=
  ⟨rfl, rfl⟩

/-- C5 (amended): on a NOT-STARTED engine every query and mutation other
than start fails with the NotStarted error, except `getNumRows` and
`getNumDraw`, which return -1 instead of failing; and once STARTED the
state never reverts: every successful operation, and every successful
start, leaves the lifecycle state STARTED. -/
theorem C5_notStarted_behavior (g : Game) :
    (g.gamestate = GameState.notStarted →
      (∀ r c, remove g r c = (g, some Err.notStarted)) ∧
      (∀ r1 c1 r2 c2, removeTwo g r1 c1 r2 c2 = (g, some Err.notStarted)) ∧
      (∀ d r c, removeUsingDraw g d r c = (g, some Err.notStarted)) ∧
      (∀ d, discardDraw g d = (g, some Err.notStarted)) ∧
      getScore g = Except.error Err.notStarted ∧
      isGameOver g = Except.error Err.notStarted ∧
      (∀ r c, getCardAt g r c = Except.error Err.notStarted) ∧
      getDrawCards g = Except.error Err.notStarted ∧
      (∀ r, getRowWidth g r = Except.error Err.notStarted) ∧
      getNumRows g = -1 ∧ getNumDraw g = -1) ∧
    (∀ op g', applyOp g op = (g', none) → g'.gamestate = GameState.started) ∧
    (∀ deck numRows numDraw g',
      startGame g deck numRows numDraw = (g', none) →
        g'.gamestate = GameState.started) := by
  refine ⟨fun h => ?_, fun op g' hop => ?_, fun deck numRows numDraw g' hs => ?_⟩
  · refine ⟨?_, ?_, ?_, ?_, ?_, ?_, ?_, ?_, ?_, ?_, ?_⟩ <;>
      · intros
        simp [remove, removeTwo, removeTwoChecks, removeUsingDraw, discardDraw,
          getScore, isGameOver, getCardAt, getDrawCards, getRowWidth,
          getNumRows, getNumDraw, h]
  · obtain ⟨h1, h2, _⟩ := applyOp_success g g' op hop
    rw [h2, h1]
  · cases deck with
    | none => simp [startGame] at hs
    | some d => exact (startGame_success g g' d numRows numDraw hs).2

/-- Witness for C5: the fresh engine. -/
theorem C5_notStarted_witness :
    remove initGame 0 0 = (initGame, some Err.notStarted) ∧
    getNumRows initGame = -1 :=
  ⟨((C5_notStarted_behavior initGame).1 rfl).1 0 0,
   (((C5_notStarted_behavior initGame).1 rfl).2.2.2.2.2.2.2.2.2).1⟩

/-- C6 (confirmed): for a started game and an occupied in-pyramid slot,
`remove` succeeds exactly on an uncovered rank-13 card — uncovered meaning
last row, or both slots directly beneath empty — and then empties exactly
that slot, leaving every other slot, the draw pile, the stock and the
lifecycle flag unchanged; a present card of other rank fails with
InvalidMove, and a covered rank-13 card fails with Covered. -/
theorem C6_remove_spec (g : Game) (row col : Nat) (c : Card)
    (hst : g.gamestate = GameState.started)
    (hrow : row < g.pyramid.length)
    (hlen : (g.pyramid.getD row []).length = row + 1)
    (hcol : col ≤ row)
    (hc : cardAt g row col = some c) :
    (isCovered g row col = false ↔
      (row + 1 = g.pyramid.length ∨
        (cardAt g (row + 1) col = none ∧ cardAt g (row + 1) (col + 1) = none))) ∧
    (c.value = 13 → isCovered g row col = false →
      remove g row col = (setCard g row col none, none) ∧
      cardAt (setCard g row col none) row col = none ∧
      (∀ r' c', ¬(r' = row ∧ c' = col) →
        cardAt (setCard g row col none) r' c' = cardAt g r' c') ∧
      (setCard g row col none).stock = g.stock ∧
      (setCard g row col none).draws = g.draws ∧
      (setCard g row col none).gamestate = g.gamestate) ∧
    (c.value ≠ 13 → remove g row col = (g, some Err.invalidMove)) ∧
    (c.value = 13 → isCovered g row col = true →
      remove g row col = (g, some Err.covered)) := by
  have hcolb : col < (g.pyramid.getD row []).length := by omega
  have hrowb : isRowInBounds g row = true := by simp [isRowInBounds, hrow]
  have hcardb : isCardInBounds g row col = true := by
    simp only [isCardInBounds, isRowInBounds, Bool.and_eq_true, decide_eq_true_eq]
    exact ⟨hrow, hcolb⟩
  refine ⟨?_, ?_, ?_, ?_⟩
  · unfold isCovered
    by_cases hlast : (row == g.pyramid.length - 1) = true
    · rw [if_pos hlast]
      simp only [beq_iff_eq] at hlast
      constructor
      · intro _
        left
        omega
      · intro _
        rfl
    · rw [if_neg hlast]
      simp only [beq_iff_eq] at hlast
      have hne : ¬(row + 1 = g.pyramid.length) := by omega
      constructor
      · intro hh
        right
        simp only [Bool.or_eq_false_iff] at hh
        constructor
        · cases hx : cardAt g (row + 1) col
          · rfl
          · rw [hx] at hh
            simp at hh
        · cases hx : cardAt g (row + 1) (col + 1)
          · rfl
          · rw [hx] at hh
            simp at hh
      · rintro (hh | ⟨h1, h2⟩)
        · exact absurd hh hne
        · rw [h1, h2]
          rfl
  · intro hval hunc
    have hrem : remove g row col = (setCard g row col none, none) := by
      unfold remove
      rw [hst, if_neg (by simp), if_neg (by simp [hrowb]), if_neg (by simp [hcardb])]
      simp only [hc]
      rw [if_neg (by simp [hval, removalValue]), if_neg (by simp [hunc])]
    refine ⟨hrem, cardAt_setCard_self g row col none hrow hcolb, ?_, rfl, rfl, rfl⟩
    intro r' c' hne
    exact cardAt_setCard_ne g row col r' c' none (fun hh => hne ⟨hh.1.symm, hh.2.symm⟩)
  · intro hval
    unfold remove
    rw [hst, if_neg (by simp), if_neg (by simp [hrowb]), if_neg (by simp [hcardb])]
    simp only [hc]
    rw [if_pos (by simpa [removalValue] using hval)]
  · intro hval hcov
    unfold remove
    rw [hst, if_neg (by simp), if_neg (by simp [hrowb]), if_neg (by simp [hcardb])]
    simp only [hc]
    rw [if_neg (by simp [hval, removalValue]), if_pos hcov]

/-- Witness for C6: a started one-slot game holding a king; the king is
uncovered and `remove 0 0` empties the slot. -/
theorem C6_remove_witness :
    remove kingGame 0 0 = (setCard kingGame 0 0 none, none) :=
  ((C6_remove_spec kingGame 0 0 (Card.mk Suit.heart 13) rfl (by decide) rfl
    (by decide) rfl).2.1 rfl rfl).1

/-- C7 (confirmed): a successful `discardDraw i` replaces draw slot `i` in
place: with non-empty stock the slot now holds the former stock front and
the stock is one shorter; with empty stock the slot becomes empty; in both
cases the draw pile keeps its length. -/
theorem C7_discardDraw_spec (g : Game) (i : Nat) (c : Card)
    (hst : g.gamestate = GameState.started)
    (hi : i < g.draws.length)
    (hc : g.draws.getD i none = some c) :
    (∀ s rest, g.stock = s :: rest →
      discardDraw g i =
        ({ g with draws := g.draws.set i (some s), stock := rest }, none) ∧
      (g.draws.set i (some s)).getD i none = some s ∧
      (g.draws.set i (some s)).length = g.draws.length ∧
      rest.length + 1 = g.stock.length) ∧
    (g.stock = [] →
      discardDraw g i = ({ g with draws := g.draws.set i none }, none) ∧
      (g.draws.set i none).getD i none = none ∧
      (g.draws.set i none).length = g.draws.length) := by
  have hne : ¬(g.draws.getD i none = none) := by
    rw [hc]
    simp
  constructor
  · intro s rest hstock
    refine ⟨?_, getD_set_self _ _ _ _ hi, by simp, by rw [hstock]; simp⟩
    unfold discardDraw
    rw [hst, if_neg (by simp), if_neg (by omega), if_neg hne, hstock]
  · intro hstock
    refine ⟨?_, getD_set_self _ _ _ _ hi, by simp⟩
    unfold discardDraw
    rw [hst, if_neg (by simp), if_neg (by omega), if_neg hne, hstock]

/-- Witness for C7: a started game with one draw card and one stock card. -/
theorem C7_discardDraw_witness :
    discardDraw drawGame 0 =
      ({ drawGame with
          draws := drawGame.draws.set 0 (some (Card.mk Suit.spade 5))
          stock := [] }, none) :=
  ((C7_discardDraw_spec drawGame 0 (Card.mk Suit.club 3) rfl (by decide) rfl).1
    (Card.mk Suit.spade 5) [] rfl).1

/-- C8 (confirmed): starting with rows = 3, draws = 3 on any deck passing
the validity check (hence of size 52) deals rows of lengths 1, 2, 3 holding
the first six deck cards in order, then the next three cards into the draw
pile front to back, and keeps the remaining 43 cards as stock in order.
(The source deals from a private copy, so the caller's array is never
mutated; the embedding is pure.) -/
theorem C8_start_deals_in_order (g : Game) (c0 c1 c2 c3 c4 c5 c6 c7 c8 : Card)
    (rest : List Card)
    (h : isValidDeck (c0::c1::c2::c3::c4::c5::c6::c7::c8::rest) = true) :
    startGame g (some (c0::c1::c2::c3::c4::c5::c6::c7::c8::rest)) 3 3 =
      (⟨[[some c0], [some c1, some c2], [some c3, some c4, some c5]],
        rest, [some c6, some c7, some c8], GameState.started⟩, none) ∧
    rest.length = 43 := by
  have hlen : (c0::c1::c2::c3::c4::c5::c6::c7::c8::rest).length = 52 :=
    ((isValidDeck_iff _).mp h).1
  have hrest : rest.length = 43 := by simpa using hlen
  refine ⟨?_, hrest⟩
  show (if !isValidDeck (c0::c1::c2::c3::c4::c5::c6::c7::c8::rest) then
      (g, some Err.invalidDeck)
    else if !isEnoughCards (c0::c1::c2::c3::c4::c5::c6::c7::c8::rest).length 3 3 then
      (g, some Err.insufficientCards)
    else if (3 : Int) == 0 && (3 : Int) == 0 then (g, some Err.invalidLayout)
    else if (3 : Int) ≤ 0 then (g, some Err.invalidLayout)
    else if (3 : Int) < 0 then (g, some Err.invalidLayout)
    else
      let dealt := dealCards (3 : Int).toNat (c0::c1::c2::c3::c4::c5::c6::c7::c8::rest)
      let drawsDealt := dealRow (3 : Int).toNat dealt.2
      (⟨dealt.1, drawsDealt.2, drawsDealt.1, GameState.started⟩, none)) = _
  have he : isEnoughCards (c0::c1::c2::c3::c4::c5::c6::c7::c8::rest).length 3 3 = true := by
    rw [hlen]
    decide
  rw [if_neg (by simp [h]), if_neg (by rw [he]; decide), if_neg (by decide),
    if_neg (by decide), if_neg (by decide)]
  rfl

/-- Witness for C8: the canonical deck decomposed into its first nine cards
and the remaining 43. -/
theorem C8_start_deals_witness :
    startGame initGame (some (Card.mk Suit.heart 1 :: Card.mk Suit.heart 2 ::
        Card.mk Suit.heart 3 :: Card.mk Suit.heart 4 :: Card.mk Suit.heart 5 ::
        Card.mk Suit.heart 6 :: Card.mk Suit.heart 7 :: Card.mk Suit.heart 8 ::
        Card.mk Suit.heart 9 :: getDeck.drop 9)) 3 3 =
      (⟨[[some (Card.mk Suit.heart 1)],
         [some (Card.mk Suit.heart 2), some (Card.mk Suit.heart 3)],
         [some (Card.mk Suit.heart 4), some (Card.mk Suit.heart 5),
          some (Card.mk Suit.heart 6)]],
        getDeck.drop 9,
        [some (Card.mk Suit.heart 7), some (Card.mk Suit.heart 8),
         some (Card.mk Suit.heart 9)], GameState.started⟩, none) ∧
    (getDeck.drop 9).length = 43 :=
  C8_start_deals_in_order initGame (Card.mk Suit.heart 1) (Card.mk Suit.heart 2)
    (Card.mk Suit.heart 3) (Card.mk Suit.heart 4) (Card.mk Suit.heart 5)
    (Card.mk Suit.heart 6) (Card.mk Suit.heart 7) (Card.mk Suit.heart 8)
    (Card.mk Suit.heart 9) (getDeck.drop 9) (by decide)

/-- The helper fact that `discardDraw` cannot fail once its three checks hold (used for C9:
`removeUsingDraw` re-establishes exactly these checks before mutating). -/
theorem discardDraw_ok (g : Game) (d : Nat)
    (hst : ¬g.gamestate = GameState.notStarted)
    (hd : d < g.draws.length) (hs : g.draws.getD d none ≠ none) :
    (discardDraw g d).2 = none := by
  unfold discardDraw
  rw [if_neg hst, if_neg (by omega), if_neg hs]
  cases g.stock <;> rfl

/-- C9 (confirmed): every mutating operation validates all preconditions
before mutating: whenever it returns an error, the engine state it leaves
behind is exactly the state before the call.  In particular the
`discardDraw` call embedded in `removeUsingDraw` can no longer fail once
the up-front checks have passed, so a failing `removeUsingDraw` clears
neither its pyramid slot nor its draw slot, and a failing `removeTwo`
clears neither slot. -/
theorem C9_failure_preserves_state (g g' : Game) (e : Err) :
    (∀ r c, remove g r c = (g', some e) → g' = g) ∧
    (∀ r1 c1 r2 c2, removeTwo g r1 c1 r2 c2 = (g', some e) → g' = g) ∧
    (∀ d r c, removeUsingDraw g d r c = (g', some e) → g' = g) ∧
    (∀ d, discardDraw g d = (g', some e) → g' = g) ∧
    (∀ deck numRows numDraw, startGame g deck numRows numDraw = (g', some e) →
      g' = g) := by
  refine ⟨fun r c h => ?_, fun r1 c1 r2 c2 h => ?_, fun d r c h => ?_,
    fun d h => ?_, fun deck numRows numDraw h => ?_⟩
  · unfold remove at h
    split at h
    next => simpa using (congrArg Prod.fst h).symm
    next =>
      split at h
      next => simpa using (congrArg Prod.fst h).symm
      next =>
        split at h
        next => simpa using (congrArg Prod.fst h).symm
        next =>
          split at h
          next => simpa using (congrArg Prod.fst h).symm
          next =>
            split at h
            next => simpa using (congrArg Prod.fst h).symm
            next =>
              split at h
              next => simpa using (congrArg Prod.fst h).symm
              next => simp at h
  · unfold removeTwo at h
    split at h
    next => simpa using (congrArg Prod.fst h).symm
    next =>
      split at h
      next => simpa using (congrArg Prod.fst h).symm
      next => simp at h
  · unfold removeUsingDraw at h
    split at h
    next => simpa using (congrArg Prod.fst h).symm
    next hst =>
      split at h
      next => simpa using (congrArg Prod.fst h).symm
      next =>
        split at h
        next => simpa using (congrArg Prod.fst h).symm
        next =>
          split at h
          next => simpa using (congrArg Prod.fst h).symm
          next hd =>
            split at h
            next => simpa using (congrArg Prod.fst h).symm
            next x hx =>
              split at h
              next => simpa using (congrArg Prod.fst h).symm
              next y hy =>
                split at h
                next => simpa using (congrArg Prod.fst h).symm
                next =>
                  split at h
                  next => simpa using (congrArg Prod.fst h).symm
                  next =>
                    exfalso
                    have hok := discardDraw_ok (setCard g r c none) d hst
                      (show d < g.draws.length by omega)
                      (show g.draws.getD d none ≠ none by rw [hy]; simp)
                    rw [h] at hok
                    simp at hok
  · unfold discardDraw at h
    split at h
    next => simpa using (congrArg Prod.fst h).symm
    next =>
      split at h
      next => simpa using (congrArg Prod.fst h).symm
      next =>
        split at h
        next => simpa using (congrArg Prod.fst h).symm
        next =>
          split at h
          next => simp at h
          next => simp at h
  · cases deck with
    | none =>
      unfold startGame at h
      simpa using (congrArg Prod.fst h).symm
    | some dk =>
      have h' : (if !isValidDeck dk then (g, some Err.invalidDeck)
          else if !isEnoughCards dk.length numRows numDraw then
            (g, some Err.insufficientCards)
          else if numRows == 0 && numDraw == 0 then (g, some Err.invalidLayout)
          else if numRows ≤ 0 then (g, some Err.invalidLayout)
          else if numDraw < 0 then (g, some Err.invalidLayout)
          else
            (⟨(dealCards numRows.toNat dk).1,
              (dealRow numDraw.toNat (dealCards numRows.toNat dk).2).2,
              (dealRow numDraw.toNat (dealCards numRows.toNat dk).2).1,
              GameState.started⟩, none)) = (g', some e) := h
      clear h
      split at h'
      next => simpa using (congrArg Prod.fst h').symm
      next =>
        split at h'
        next => simpa using (congrArg Prod.fst h').symm
        next =>
          split at h'
          next => simpa using (congrArg Prod.fst h').symm
          next =>
            split at h'
            next => simpa using (congrArg Prod.fst h').symm
            next =>
              split at h'
              next => simpa using (congrArg Prod.fst h').symm
              next => simp at h'

/-- Witness for C9: the fresh engine rejects `remove` and is returned
unchanged. -/
theorem C9_failure_witness :
    remove initGame 0 0 = (initGame, some Err.notStarted) ∧ initGame = initGame :=
  ⟨rfl, (C9_failure_preserves_state initGame initGame Err.notStarted).1 0 0 rfl⟩

/-- C10 (confirmed): with integer ranks, twice one card's rank can never be
the odd removal target 13, so `removeTwo` at one and the same occupied
position always fails with InvalidMove and returns the state unchanged; and
no successful `removeTwo` can use the same position twice, so it always
clears exactly two distinct slots, never one. -/
theorem C10_removeTwo_same_position (g : Game) (row col : Nat) (c : Card)
    (hst : g.gamestate = GameState.started)
    (hrow : row < g.pyramid.length)
    (hcol : col < (g.pyramid.getD row []).length)
    (hc : cardAt g row col = some c) :
    removeTwo g row col row col = (g, some Err.invalidMove) ∧
    (∀ r1 c1 r2 c2 g', removeTwo g r1 c1 r2 c2 = (g', none) →
      ¬(r1 = r2 ∧ c1 = c2)) := by
  constructor
  · have hrowb : isRowInBounds g row = true := by simp [isRowInBounds, hrow]
    have hcardb : isCardInBounds g row col = true := by
      simp only [isCardInBounds, isRowInBounds, Bool.and_eq_true, decide_eq_true_eq]
      exact ⟨hrow, hcol⟩
    have hchecks : removeTwoChecks g row col row col = some Err.invalidMove := by
      unfold removeTwoChecks
      rw [hst, if_neg (by simp), if_neg (by simp [hrowb]), if_neg (by simp [hcardb])]
      simp only [hc]
      rw [if_pos (by unfold removalValue; omega)]
    unfold removeTwo
    rw [hchecks]
  · intro r1 c1 r2 c2 g' hsucc
    exact (removeTwo_success g g' r1 c1 r2 c2 hsucc).2.2.2

/-- Witness for C10: a started one-slot game holding a six; removing the
slot paired with itself fails with InvalidMove. -/
theorem C10_removeTwo_witness :
    removeTwo sixGame 0 0 0 0 = (sixGame, some Err.invalidMove) :=
  (C10_removeTwo_same_position sixGame 0 0 (Card.mk Suit.heart 6) rfl (by decide)
    (by decide) rfl).1

end PyramidSolitaire
